import Mathlib

/-!
Shallow embedding of the f2v encode/decode codec.

Source files embedded here:
- `app/utils/conversion.py` (`convert_file_to_video`, `process_frame`,
  the color-mapping loop and the byte-to-block map);
- `app/utils/utils.py` (`verify_metadata`, `check_file_properties`,
  `process_block`, `reconstruct_bytes_from_frame`, `convert_video_to_file`).

Modelling conventions:
- Python byte strings are `List Nat` (each element the byte value);
- Python dicts built by insertion are association lists `List (Nat × α)`
  in insertion order; dict lookup is first-match lookup;
- logging calls in the source are modelled as `LogEvent` values, one
  constructor per distinct logger call relevant to the contract;
- filesystem / OpenCV side effects are modelled by explicit environment
  records (`DecodeEnv`) and trace events (`IOEvent`); a `try/except`
  block that returns `None` is modelled by an `Option` result;
- the SHA-256 hash is an uninterpreted parameter `H : List Nat → String`
  threaded through encode and decode (the claims never depend on the
  hash function itself, only on equality of its values);
- the thread pool's `as_completed` order is an explicit `completion`
  list parameter: the loop body consumes future results in exactly that
  order.
-/

namespace F2V

/-- An RGB triple as stored in `color_mapping` entries
(`conversion.py` line 77). -/
structure ColorEntry where
  r : Nat
  g : Nat
  b : Nat
deriving DecidableEq

/-- The per-index color formula of the encode loop
(`conversion.py` lines 74-76): `r=(i*3)%256, g=(i*5)%256, b=(i*7)%256`. -/
def colorFor (i : Nat) : ColorEntry :=
  { r := i * 3 % 256, g := i * 5 % 256, b := i * 7 % 256 }

/-- The `color_mapping` dict built by the loop at `conversion.py`
lines 73-77, in insertion order: one entry per byte index `i < total_bytes`. -/
def color_mapping (total_bytes : Nat) : List (Nat × ColorEntry) :=
  (List.range total_bytes).map fun i => (i, colorFor i)

/-- One entry of `byte_to_block_map` / `byte_ranges`.  The encode side
(`conversion.py` line 78) stores only `frame` and `block`; the decode side
(`utils.py` line 92) additionally probes for an optional `coordinates` key,
modelled here as an `Option` field (`none` = key absent). -/
structure ByteInfo where
  frame : Nat
  block : Nat
  coordinates : Option (Nat × Nat)
deriving DecidableEq

/-- The `byte_to_block_map` dict built at `conversion.py` line 78:
every byte index is assigned `{"frame": 6, "block": i}` and nothing else. -/
def byte_to_block_map (total_bytes : Nat) : List (Nat × ByteInfo) :=
  (List.range total_bytes).map fun i =>
    (i, { frame := 6, block := i, coordinates := none })

/-- A decoded video frame: a pixel buffer of `height × width` RGB pixels,
as read back by `cap.read()` (`utils.py` line 155).  `pixel y x` is the
pixel at row `y`, column `x`. -/
structure Frame where
  height : Nat
  width : Nat
  pixel : Nat → Nat → ColorEntry

/-- Sum of one channel over the 4×4 block at `(x, y)`:
the summation underlying `frame[y:y+4, x:x+4].mean(axis=(0,1))`
(`utils.py` line 79). -/
def blockSum (frame : Frame) (x y : Nat) (ch : ColorEntry → Nat) : Nat :=
  ((List.range 4).map fun dy =>
    ((List.range 4).map fun dx => ch (frame.pixel (y + dy) (x + dx))).sum).sum

/-- `process_block` (`utils.py` lines 76-84): if the 4×4 block at `(x, y)`
lies inside the frame, return the per-channel mean converted with Python
`int()` — which truncates, i.e. Nat floor division of the channel sum by 16
(the float mean of at most 16·255 is exact, and `int` of a nonnegative
float is its floor); out of bounds, log a warning and return `None`. -/
def process_block (frame : Frame) (x y : Nat) : Option ColorEntry :=
  if y + 4 ≤ frame.height ∧ x + 4 ≤ frame.width then
    some { r := blockSum frame x y ColorEntry.r / 16,
           g := blockSum frame x y ColorEntry.g / 16,
           b := blockSum frame x y ColorEntry.b / 16 }
  else none

/-- The inner matching loop of `reconstruct_bytes_from_frame`
(`utils.py` lines 100-106): scan `color_mapping.items()` in order and
return the key of the first entry whose `(r, g, b)` equals the block
color. -/
def findMatch (table : List (Nat × ColorEntry)) (c : ColorEntry) : Option Nat :=
  (table.find? fun p => p.2 == c).map Prod.fst

/-- `bytearray.append` (`utils.py` line 103): succeeds for values in
`[0, 256)`, raises `ValueError` (modelled as `none`) otherwise. -/
def bytearray_append (bs : List Nat) (v : Nat) : Option (List Nat) :=
  if v < 256 then some (bs ++ [v]) else none

/-- The entry loop of `reconstruct_bytes_from_frame` (`utils.py`
lines 91-109), with the accumulated `original_bytes` made explicit.
Entries without a `coordinates` key are skipped; an out-of-bounds block or
an unmatched color is logged and skipped; a matched key is appended with
`bytearray.append`, whose `ValueError` aborts the whole call (`none`). -/
def reconstructGo (frame : Frame) (table : List (Nat × ColorEntry)) :
    List (Nat × ByteInfo) → List Nat → Option (List Nat)
  | [], acc => some acc
  | (_, info) :: rest, acc =>
    match info.coordinates with
    | none => reconstructGo frame table rest acc
    | some (x, y) =>
      match process_block frame x y with
      | none => reconstructGo frame table rest acc
      | some c =>
        match findMatch table c with
        | none => reconstructGo frame table rest acc
        | some k =>
          match bytearray_append acc k with
          | none => none
          | some acc2 => reconstructGo frame table rest acc2

/-- `reconstruct_bytes_from_frame` (`utils.py` lines 86-114), taking the
manifest's `byte_ranges` dict directly (the Python function receives the
whole metadata dict and reads only `metadata['byte_ranges']`). -/
def reconstruct_bytes_from_frame (frame : Frame) (table : List (Nat × ColorEntry))
    (byte_ranges : List (Nat × ByteInfo)) : Option (List Nat) :=
  reconstructGo frame table byte_ranges []

/-- The logger calls of `utils.py` and `conversion.py` that bear on the
claims, one constructor per distinct call site. -/
inductive LogEvent where
  | metadataAbsent
  | missingKey (k : String)
  | byteRangesInvalid
  | verifyPassed
  | verifyAbort
  | videoUnopenable
  | colorMappingAbsent
  | frameReadFailed
  | futureError
  | expectedSizeIs (n : Nat)
  | actualSizeIs (n : Nat)
  | sizeMismatchWarning
  | sizeMatches
  | expectedHashIs (h : String)
  | actualHashIs (h : String)
  | hashMismatchWarning
  | hashMatches
  | conversionError
deriving DecidableEq

/-- The `byte_ranges` value of a loaded metadata JSON object: the key can
be absent, present but not a JSON object, or an object (association list). -/
inductive BRField where
  | missing
  | notDict
  | dict (entries : List (Nat × ByteInfo))
deriving DecidableEq

/-- A loaded metadata JSON object (`conversion.py` lines 105-111).
`Option` fields model presence of the corresponding key. -/
structure Metadata where
  file_size : Option Nat
  file_hash : Option String
  original_format : Option String
  video_path : Option String
  byte_ranges : BRField
deriving DecidableEq

/-- `verify_metadata` (`utils.py` lines 60-74): check the required keys in
order, then that `byte_ranges` is a non-empty dict; returns the boolean
result together with the log line it emits. -/
def verify_metadata (m : Metadata) : Bool × List LogEvent :=
  if m.file_size.isNone then (false, [.missingKey "file_size"])
  else if m.file_hash.isNone then (false, [.missingKey "file_hash"])
  else
    match m.byte_ranges with
    | .missing => (false, [.missingKey "byte_ranges"])
    | .notDict => (false, [.byteRangesInvalid])
    | .dict [] => (false, [.byteRangesInvalid])
    | .dict (_ :: _) => (true, [.verifyPassed])

/-- `check_file_properties` (`utils.py` lines 32-58) applied to the
just-written reconstructed bytes (the file always exists at this point,
having been written at `utils.py` line 183): logs expected and actual
size, a warning or a confirmation, then the same for the hash.  Returns
`none` for the `KeyError` raised if a compared key were absent. -/
def check_file_properties (H : List Nat → String) (md : Metadata)
    (bytes : List Nat) : Option (List LogEvent) :=
  match md.file_size, md.file_hash with
  | some esz, some ehash =>
    some ([.expectedSizeIs esz, .actualSizeIs bytes.length]
      ++ (if bytes.length ≠ esz then [.sizeMismatchWarning] else [.sizeMatches])
      ++ [.expectedHashIs ehash, .actualHashIs (H bytes)]
      ++ (if H bytes ≠ ehash then [.hashMismatchWarning] else [.hashMatches]))
  | _, _ => none

/-- The external state `convert_video_to_file` reads: the metadata file
(`none` = absent), whether `cv2.VideoCapture` opens the video, the color
mapping file, and the result of reading frame 6 (`none` = read failed). -/
structure DecodeEnv where
  metadata : Option Metadata
  videoOpens : Bool
  color_mapping : Option (List (Nat × ColorEntry))
  frame6 : Option Frame

/-- Result of `convert_video_to_file`: the returned value (`none` = the
Python function returned `None`), the contents written to
`reconstructed_file.bin` (`none` = never written), and the log. -/
structure DecodeOutcome where
  result : Option String
  reconstructed : Option (List Nat)
  logs : List LogEvent
deriving DecidableEq

/-- `RECONSTRUCTED_FILE_PATH` (`utils.py` line 13). -/
def RECONSTRUCTED_FILE_PATH : String := "reconstructed_file.bin"

/-- The `byte_ranges` entries of a metadata object whose `byte_ranges`
key holds a dict (`metadata['byte_ranges'].items()`). -/
def brEntries (md : Metadata) : List (Nat × ByteInfo) :=
  match md.byte_ranges with
  | .dict l => l
  | _ => []

/-- The futures submitted at `utils.py` lines 162-166: one per
`byte_ranges` entry with `frame == 6`, each running
`reconstruct_bytes_from_frame` on frame 6, the color mapping and the
whole `byte_ranges` dict. -/
def decodeFutures (fr : Frame) (table : List (Nat × ColorEntry))
    (br : List (Nat × ByteInfo)) : List (Option (List Nat)) :=
  (br.filter fun p => p.2.frame == 6).map
    fun _ => reconstruct_bytes_from_frame fr table br

/-- The result-collection loop at `utils.py` lines 168-178: extend
`original_bytes` with each future's bytearray; a future that raised is
caught and logged, and the loop continues. -/
def collectFutures (futures : List (Option (List Nat))) :
    List Nat × List LogEvent :=
  futures.foldl
    (fun st r =>
      match r with
      | some bs => (st.1 ++ bs, st.2)
      | none => (st.1, st.2 ++ [LogEvent.futureError]))
    ([], [])

/-- The byte stream `convert_video_to_file` accumulates into
`original_bytes` and writes to `reconstructed_file.bin`. -/
def reconstructedStream (fr : Frame) (table : List (Nat × ColorEntry))
    (md : Metadata) : List Nat :=
  (collectFutures (decodeFutures fr table (brEntries md))).1

/-- `convert_video_to_file` (`utils.py` lines 116-195).  The outer
`try/except` that logs and returns `None` on any uncaught exception is
the `result := none` branches; a failed frame-6 read is logged but does
not abort (the source has no `return` there), so decode proceeds with an
empty futures list. -/
def convert_video_to_file (H : List Nat → String) (env : DecodeEnv) :
    DecodeOutcome :=
  match env.metadata with
  | none => { result := none, reconstructed := none, logs := [.metadataAbsent] }
  | some md =>
    let v := verify_metadata md
    if v.1 then
      if env.videoOpens then
        match env.color_mapping with
        | none =>
          { result := none, reconstructed := none,
            logs := v.2 ++ [.colorMappingAbsent] }
        | some table =>
          match env.frame6 with
          | none =>
            match check_file_properties H md [] with
            | none =>
              { result := none, reconstructed := some [],
                logs := v.2 ++ [.frameReadFailed] }
            | some clogs =>
              { result := some RECONSTRUCTED_FILE_PATH, reconstructed := some [],
                logs := v.2 ++ [.frameReadFailed] ++ clogs }
          | some fr =>
            let collected := collectFutures (decodeFutures fr table (brEntries md))
            match check_file_properties H md collected.1 with
            | none =>
              { result := none, reconstructed := some collected.1,
                logs := v.2 ++ collected.2 }
            | some clogs =>
              { result := some RECONSTRUCTED_FILE_PATH,
                reconstructed := some collected.1,
                logs := v.2 ++ collected.2 ++ clogs }
      else
        { result := none, reconstructed := none, logs := v.2 ++ [.videoUnopenable] }
    else
      { result := none, reconstructed := none, logs := v.2 ++ [.verifyAbort] }

/-- A frame buffer as synthesized by the encoder: `np.zeros` (all black)
with at most one 4×4 block painted at `(x_start, y_start)`
(`conversion.py` lines 82-92). -/
structure FrameBuf where
  height : Nat
  width : Nat
  paint : Option (Nat × Nat × ColorEntry)
deriving DecidableEq

/-- `frame_height` (`conversion.py` line 59). -/
def frame_height : Nat := 4320

/-- `frame_width` (`conversion.py` line 60). -/
def frame_width : Nat := 7680

/-- The all-black filler frame (`conversion.py` line 65). -/
def black_frame : FrameBuf :=
  { height := frame_height, width := frame_width, paint := none }

/-- Python dict lookup on an insertion-ordered association list. -/
def lookupKey {α : Type} (m : List (Nat × α)) (k : Nat) : Option α :=
  (m.find? fun p => p.1 == k).map Prod.snd

/-- `process_frame` (`conversion.py` lines 81-93): every frame is black
except index 5, which paints the color of byte index `total_bytes // 2`
as a 4×4 block at the frame center; the dict access
`color_mapping[known_byte_index]` raises `KeyError` (`none`) when that
key is absent (which happens exactly when `total_bytes = 0`). -/
def process_frame (total_bytes frame_idx : Nat) : Option FrameBuf :=
  if frame_idx == 5 then
    match lookupKey (color_mapping total_bytes) (total_bytes / 2) with
    | none => none
    | some c =>
      some { height := frame_height, width := frame_width,
             paint := some (frame_width / 2 - 2, frame_height / 2 - 2, c) }
  else some black_frame

/-- The `as_completed` write loop of the encoder (`conversion.py`
lines 95-99): consume future results in completion order, writing each
frame buffer to the sink; the first future whose `process_frame` raised
aborts the loop (its `KeyError` is re-raised by `future.result()`).
Returns the buffers written and whether the loop completed. -/
def poolWrites (total_bytes : Nat) : List Nat → List FrameBuf × Bool
  | [] => ([], true)
  | i :: rest =>
    match process_frame total_bytes i with
    | none => ([], false)
    | some fb =>
      let t := poolWrites total_bytes rest
      (fb :: t.1, t.2)

/-- The frame buffers written to the sink by the pool loop, as a function
of the completion order of the 30 frame futures. -/
def writtenDataFrames (total_bytes : Nat) (completion : List Nat) : List FrameBuf :=
  (poolWrites total_bytes completion).1

/-- The side effects `convert_file_to_video` performs, in order. -/
inductive IOEvent where
  | writeTempFile (content : List Nat)
  | openVideoWriter (path : String)
  | writeFrame (fb : FrameBuf)
  | releaseWriter
  | saveColorMapping
  | saveMetadata
deriving DecidableEq

/-- Result of `convert_file_to_video`: the returned value, the I/O trace
up to the point of return, and the persisted mapping/metadata files
(`none` = never written). -/
structure EncodeOutcome where
  result : Option String
  trace : List IOEvent
  saved_color_mapping : Option (List (Nat × ColorEntry))
  saved_metadata : Option Metadata
  logs : List LogEvent

/-- The hardcoded output video path (`conversion.py` line 56). -/
def VIDEO_PATH : String := "generated_videos/sample_video.mp4"

/-- `file.filename.split('.')[-1]` (`conversion.py` line 108). -/
def extOf (filename : String) : String :=
  (filename.splitOn ".").getLastD ""

/-- `convert_file_to_video` (`conversion.py` lines 43-134), parameterized
by the hash function and by the completion order of the 30 pooled frame
futures.  The uploaded file is saved, the writer opened and 30 black
frames written unconditionally; then the pool loop runs; on its success
the writer is released and the color mapping and metadata are saved.  Any
exception is caught by the outer handler, which logs a generic error and
returns `None` — the metadata-reload logging block at lines 114-127 only
logs and is elided. -/
def convert_file_to_video (H : List Nat → String) (filename : String)
    (content : List Nat) (completion : List Nat) : EncodeOutcome :=
  let total_bytes := content.length
  let leadTrace : List IOEvent :=
    [.writeTempFile content, .openVideoWriter VIDEO_PATH]
      ++ (List.range 30).map fun _ => .writeFrame black_frame
  let pw := poolWrites total_bytes completion
  if pw.2 then
    { result := some VIDEO_PATH,
      trace := leadTrace ++ pw.1.map .writeFrame
        ++ [.releaseWriter, .saveColorMapping, .saveMetadata],
      saved_color_mapping := some (color_mapping total_bytes),
      saved_metadata := some
        { file_size := some total_bytes, file_hash := some (H content),
          original_format := some (extOf filename),
          video_path := some VIDEO_PATH,
          byte_ranges := .dict (byte_to_block_map total_bytes) },
      logs := [] }
  else
    { result := none,
      trace := leadTrace ++ pw.1.map .writeFrame,
      saved_color_mapping := none, saved_metadata := none,
      logs := [.conversionError] }

/-- The frame sequence of the produced video: 30 leading black filler
frames (`conversion.py` lines 66-67) followed by the pooled frames in
write order. -/
def videoFrames (total_bytes : Nat) (completion : List Nat) : List FrameBuf :=
  ((List.range 30).map fun _ => black_frame) ++ (poolWrites total_bytes completion).1

/-- Pixel semantics of a synthesized frame buffer: black everywhere
except the painted 4×4 block. -/
def FrameBuf.toFrame (fb : FrameBuf) : Frame :=
  { height := fb.height, width := fb.width,
    pixel := fun y x =>
      match fb.paint with
      | none => { r := 0, g := 0, b := 0 }
      | some (xs, ys, c) =>
        if ys ≤ y ∧ y < ys + 4 ∧ xs ≤ x ∧ x < xs + 4 then c
        else { r := 0, g := 0, b := 0 } }

/-- The decode environment produced by a completed encode with no lossy
re-encoding in between: decode loads exactly the files encode saved and
reads back exactly the frames encode wrote (frame 6 is the seventh frame
of the video, per `cap.set(cv2.CAP_PROP_POS_FRAMES, 6)`). -/
def decodeEnvOf (o : EncodeOutcome) (total_bytes : Nat)
    (completion : List Nat) : DecodeEnv :=
  { metadata := o.saved_metadata,
    videoOpens := o.result.isSome,
    color_mapping := o.saved_color_mapping,
    frame6 := ((videoFrames total_bytes completion).get? 6).map FrameBuf.toFrame }

/-- Encode followed immediately by decode over the same store and video. -/
def roundTrip (H : List Nat → String) (filename : String) (content : List Nat)
    (completion : List Nat) : DecodeOutcome :=
  convert_video_to_file H
    (decodeEnvOf (convert_file_to_video H filename content completion)
      content.length completion)

/-- A concrete stand-in hash function for witnesses (the claims never
depend on the hash function itself). -/
def hashZero : List Nat → String := fun _ => ""

/-- Modelled from the spec (claim side, for comparison only): the
`blocks_per_frame` of §4.2, `floor(frame_width/block_size) *
floor(frame_height/block_size)` with `block_size = 4`. -/
def blocks_per_frame : Nat := frame_width / 4 * (frame_height / 4)

/-- Modelled from the spec (claim side): the 30 leading filler frames. -/
def leading_filler_frames : Nat := 30

/-- Modelled from the spec (claim side, for comparison only): the §4.2
frame-assignment formula `leading_filler_frames + floor(i / blocks_per_frame)`. -/
def planned_frame (i : Nat) : Nat :=
  leading_filler_frames + i / blocks_per_frame

/-- Modelled from the spec (claim side, for comparison only): the §4.5
sampler with each channel mean rounded to the NEAREST integer
(half rounded up; the comparison below uses a tie-free input, where every
nearest-rounding convention agrees). -/
def process_block_claim (frame : Frame) (x y : Nat) : Option ColorEntry :=
  if y + 4 ≤ frame.height ∧ x + 4 ≤ frame.width then
    some { r := (blockSum frame x y ColorEntry.r + 8) / 16,
           g := (blockSum frame x y ColorEntry.g + 8) / 16,
           b := (blockSum frame x y ColorEntry.b + 8) / 16 }
  else none

/-- A concrete 4×4 frame whose only nonzero pixel is `(0,0)` with value 12
in every channel, so each channel of the block at `(0,0)` has sum 12 and
mean 0.75. -/
def frameC : Frame :=
  { height := 4, width := 4,
    pixel := fun y x =>
      if y = 0 ∧ x = 0 then { r := 12, g := 12, b := 12 }
      else { r := 0, g := 0, b := 0 } }

/-- A concrete hand-crafted color table whose single entry has key 300. -/
def tableX : List (Nat × ColorEntry) := [(300, { r := 1, g := 2, b := 3 })]

/-- A concrete metadata object whose single `byte_ranges` entry carries a
`coordinates` key at `(0, 0)` on frame 6. -/
def mdX : Metadata :=
  { file_size := some 0, file_hash := some "", original_format := none,
    video_path := none,
    byte_ranges := .dict [(0, { frame := 6, block := 0, coordinates := some (0, 0) })] }

/-- A concrete 4×4 frame that is uniformly the color `(1, 2, 3)`, so every
in-bounds block mean is exactly `(1, 2, 3)`. -/
def frX : Frame := { height := 4, width := 4, pixel := fun _ _ => { r := 1, g := 2, b := 3 } }

/-- The concrete decode environment combining `mdX`, `tableX` and `frX`. -/
def envX10 : DecodeEnv :=
  { metadata := some mdX, videoOpens := true, color_mapping := some tableX,
    frame6 := some frX }

/-- A concrete decode environment whose metadata file is absent. -/
def envBad : DecodeEnv :=
  { metadata := none, videoOpens := false, color_mapping := none, frame6 := none }

/-- A concrete structurally-valid metadata object whose stored size (1)
and hash ("x") both disagree with the empty stream decode reconstructs
from it. -/
def mdW : Metadata :=
  { file_size := some 1, file_hash := some "x", original_format := none,
    video_path := none,
    byte_ranges := .dict [(0, { frame := 6, block := 0, coordinates := none })] }

/-- A concrete decode environment around `mdW` with an empty color table. -/
def envW : DecodeEnv :=
  { metadata := some mdW, videoOpens := true, color_mapping := some [],
    frame6 := some frX }

/-! ## Helper lemmas -/

/-- The color formula is injective on indices below 256: already the red
channel `i*3 % 256` determines `i` there, since 3 is invertible mod 256. -/
theorem colorFor_injOn {i j : Nat} (hi : i < 256) (hj : j < 256)
    (h : colorFor i = colorFor j) : i = j := by
  have hr : i * 3 % 256 = j * 3 % 256 := congrArg ColorEntry.r h
  have hm : Nat.ModEq 256 (i * 3) (j * 3) := hr
  have h2 : Nat.ModEq 256 i j :=
    Nat.ModEq.cancel_right_of_coprime (by decide) hm
  have h3 : i % 256 = j % 256 := h2
  rwa [Nat.mod_eq_of_lt hi, Nat.mod_eq_of_lt hj] at h3

/-- Every entry of the color table is `(i, colorFor i)` for some `i`
below the total byte count. -/
theorem mem_color_mapping {n : Nat} {p : Nat × ColorEntry}
    (h : p ∈ color_mapping n) : p.1 < n ∧ p.2 = colorFor p.1 := by
  simp only [color_mapping, List.mem_map, List.mem_range] at h
  obtain ⟨i, hi, rfl⟩ := h
  exact ⟨hi, rfl⟩

/-- For domains of at most 256 indices the first-match inverse lookup of
the color table recovers the index exactly. -/
theorem findMatch_color_mapping {n i : Nat} (hn : n ≤ 256) (hi : i < n) :
    findMatch (color_mapping n) (colorFor i) = some i := by
  have hmem : ((i, colorFor i) : Nat × ColorEntry) ∈ color_mapping n := by
    simp only [color_mapping, List.mem_map, List.mem_range]
    exact ⟨i, hi, rfl⟩
  have hsome : ((color_mapping n).find? fun p => p.2 == colorFor i).isSome := by
    rw [List.find?_isSome]
    exact ⟨(i, colorFor i), hmem, by simp⟩
  obtain ⟨q, hq⟩ := Option.isSome_iff_exists.mp hsome
  have hqmem := List.mem_of_find?_eq_some hq
  have hqp : q.2 = colorFor i := by simpa using List.find?_some hq
  obtain ⟨hq1, hq2⟩ := mem_color_mapping hqmem
  have hqc : colorFor q.1 = colorFor i := by rw [← hq2]; exact hqp
  have hkey : q.1 = i :=
    colorFor_injOn (lt_of_lt_of_le hq1 hn) (lt_of_lt_of_le hi hn) hqc
  unfold findMatch
  rw [hq]
  simp [hkey]

/-- Python dict lookup on the color table succeeds for any in-range key. -/
theorem lookupKey_color_mapping {n k : Nat} (h : k < n) :
    lookupKey (color_mapping n) k = some (colorFor k) := by
  have hmem : ((k, colorFor k) : Nat × ColorEntry) ∈ color_mapping n := by
    simp only [color_mapping, List.mem_map, List.mem_range]
    exact ⟨k, h, rfl⟩
  have hsome : ((color_mapping n).find? fun p => p.1 == k).isSome := by
    rw [List.find?_isSome]
    exact ⟨(k, colorFor k), hmem, by simp⟩
  obtain ⟨q, hq⟩ := Option.isSome_iff_exists.mp hsome
  have hqmem := List.mem_of_find?_eq_some hq
  have hkey : q.1 = k := by simpa using List.find?_some hq
  obtain ⟨-, hq2⟩ := mem_color_mapping hqmem
  unfold lookupKey
  rw [hq]
  simp [hq2, hkey]

/-- The reconstruction loop over entries that all lack a `coordinates`
key leaves the accumulator untouched. -/
theorem reconstructGo_all_none (fr : Frame) (t : List (Nat × ColorEntry)) :
    ∀ (l : List (Nat × ByteInfo)) (acc : List Nat),
      (∀ p ∈ l, (Prod.snd p).coordinates = none) →
      reconstructGo fr t l acc = some acc
  | [], _, _ => rfl
  | (k, info) :: rest, acc, h => by
    have h1 : info.coordinates = none := h (k, info) (List.Mem.head _)
    simp only [reconstructGo, h1]
    exact reconstructGo_all_none fr t rest acc fun p hp => h p (List.Mem.tail _ hp)

/-- Every entry of the encode-produced byte map is
`(i, {frame := 6, block := i, coordinates := none})`. -/
theorem byte_to_block_map_entry {n : Nat} {p : Nat × ByteInfo}
    (h : p ∈ byte_to_block_map n) :
    p.1 < n ∧ p.2 = { frame := 6, block := p.1, coordinates := none } := by
  simp only [byte_to_block_map, List.mem_map, List.mem_range] at h
  obtain ⟨i, hi, rfl⟩ := h
  exact ⟨hi, rfl⟩

/-- For a non-empty input every pooled frame construction succeeds, and
frame 5 carries the sample block colored for byte `total_bytes / 2`. -/
theorem process_frame_eq {n : Nat} (hn : 1 ≤ n) (i : Nat) :
    process_frame n i = some (
      if i == 5 then
        { height := frame_height, width := frame_width,
          paint := some (frame_width / 2 - 2, frame_height / 2 - 2, colorFor (n / 2)) }
      else black_frame) := by
  have hlt : n / 2 < n := Nat.div_lt_self hn one_lt_two
  unfold process_frame
  by_cases h5 : (i == 5) = true
  · rw [if_pos h5, lookupKey_color_mapping hlt, if_pos h5]
  · rw [if_neg h5, if_neg h5]

/-- For a non-empty input the pool write loop always completes. -/
theorem poolWrites_ok {n : Nat} (hn : 1 ≤ n) :
    ∀ l : List Nat, (poolWrites n l).2 = true
  | [] => rfl
  | i :: rest => by
    simp only [poolWrites, process_frame_eq hn i]
    exact poolWrites_ok hn rest

/-- Frame 6 of any produced video is a leading black filler frame. -/
theorem videoFrames_get6 (n : Nat) (c : List Nat) :
    (videoFrames n c).get? 6 = some black_frame := by
  unfold videoFrames
  rw [List.get?_append (by simp)]
  decide

/-- Folding the future-collection step over futures that all returned an
empty bytearray changes nothing. -/
theorem collectStep_all_empty :
    ∀ (fs : List (Option (List Nat))) (a : List Nat) (b : List LogEvent),
      (∀ r ∈ fs, r = some []) →
      fs.foldl
        (fun st r =>
          match r with
          | some bs => (st.1 ++ bs, st.2)
          | none => (st.1, st.2 ++ [LogEvent.futureError]))
        (a, b) = (a, b)
  | [], _, _, _ => rfl
  | r :: rest, a, b, h => by
    have h1 : r = some [] := h r (List.Mem.head _)
    subst h1
    simp only [List.foldl_cons, List.append_nil]
    exact collectStep_all_empty rest a b fun q hq => h q (List.Mem.tail _ hq)

/-- Collecting futures that all returned an empty bytearray yields an
empty byte stream and no error logs. -/
theorem collectFutures_all_empty {fs : List (Option (List Nat))}
    (h : ∀ r ∈ fs, r = some []) : collectFutures fs = ([], []) :=
  collectStep_all_empty fs [] [] h

/-! ## Claims -/

/-- Claim C2 (code_bug evidence): the layout planner of the source assigns
EVERY byte index the constant frame number 6, the raw index as `block`,
and no coordinate at all, whereas the claimed formula gives
`leading_filler_frames + floor(i / blocks_per_frame) = 30` already for
byte 0. -/
theorem c2_layout_stub :
    (∀ n, ((byte_to_block_map n).all fun p =>
        p.2.frame == 6 && p.2.block == p.1 && p.2.coordinates.isNone) = true) ∧
    lookupKey (byte_to_block_map 4) 0
      = some { frame := 6, block := 0, coordinates := none } ∧
    planned_frame 0 = 30 ∧ (6 : Nat) ≠ 30 := by
  refine ⟨?_, by decide, by decide, by decide⟩
  intro n
  rw [List.all_eq_true]
  intro p hp
  rw [(byte_to_block_map_entry hp).2]
  simp

set_option maxRecDepth 8000 in
/-- Claim C3 counterexample: with 257 byte indices in use, index 256 is
assigned the same color as index 0, the inverse lookup on its color
silently returns 0 rather than 256, and the encoder still succeeds
without reporting anything (no collision guard exists). -/
theorem c3_counterexample :
    colorFor 256 = colorFor 0 ∧
    findMatch (color_mapping 257) (colorFor 256) = some 0 ∧
    (0 : Nat) ≠ 256 ∧
    (convert_file_to_video hashZero "f.bin" (List.replicate 257 0) (List.range 30)).result
      = some VIDEO_PATH ∧
    (convert_file_to_video hashZero "f.bin" (List.replicate 257 0) (List.range 30)).logs
      = [] := by
  refine ⟨by decide, by decide, by decide, ?_, ?_⟩ <;> decide

/-- Claim C3 (amended): the color table has exactly one entry per byte
index, and for encoding domains of at most 256 indices the inverse lookup
is exact (`byteFor (colorFor i) = i`); beyond 256 indices the formula
collides and the code resolves collisions silently (see the
counterexample), with no guard. -/
theorem c3_bijective_up_to_256 {n i : Nat} (hn : n ≤ 256) (hi : i < n) :
    ((color_mapping n).map Prod.fst).count i = 1 ∧
    findMatch (color_mapping n) (colorFor i) = some i := by
  constructor
  · have hkeys : (color_mapping n).map Prod.fst = List.range n := by
      unfold color_mapping
      rw [List.map_map]
      have hid : Prod.fst ∘ (fun i : Nat => (i, colorFor i)) = id := rfl
      rw [hid, List.map_id]
    rw [hkeys]
    exact List.count_eq_one_of_mem (List.nodup_range n) (List.mem_range.mpr hi)
  · exact findMatch_color_mapping hn hi

/-- Claim C3 witness: the amended statement at the concrete domain 256
and index 255. -/
theorem c3_witness :
    (256 : Nat) ≤ 256 ∧ (255 : Nat) < 256 ∧
    (((color_mapping 256).map Prod.fst).count 255 = 1 ∧
      findMatch (color_mapping 256) (colorFor 255) = some 255) :=
  ⟨by decide, by decide, c3_bijective_up_to_256 (by decide) (by decide)⟩

/-- Claim C4 (code_bug evidence): the encoder writes pooled frames in
completion order (`as_completed`), so a run whose workers complete in
reverse index order produces a different write sequence — in particular
the data frame (index 5, the only non-black buffer) is no longer the
sixth buffer written. -/
theorem c4_writes_in_completion_order :
    ((List.range 30).reverse).Perm (List.range 30) ∧
    writtenDataFrames 2 ((List.range 30).reverse) ≠ writtenDataFrames 2 (List.range 30) ∧
    (writtenDataFrames 2 (List.range 30)).get? 5 ≠ some black_frame ∧
    (writtenDataFrames 2 ((List.range 30).reverse)).get? 5 = some black_frame :=
  ⟨List.reverse_perm _, by decide, by decide, by decide⟩

/-- Claim C7 counterexample: on a block whose channel sums are 12 (mean
0.75), the source sampler truncates to 0 while the claimed
nearest-integer rounding gives 1. -/
theorem c7_counterexample :
    process_block frameC 0 0 = some { r := 0, g := 0, b := 0 } ∧
    process_block_claim frameC 0 0 = some { r := 1, g := 1, b := 1 } ∧
    process_block frameC 0 0 ≠ process_block_claim frameC 0 0 := by
  decide

/-- Claim C7 (amended): for in-bounds coordinates the sampler returns the
per-channel mean TRUNCATED toward zero (floor of sum/16, as the bounds
below state), and returns `none` (a logged bounds warning) whenever the
4×4 block exceeds the frame dimensions. -/
theorem c7_truncated_mean (f : Frame) (x y : Nat) :
    process_block f x y =
      (if y + 4 ≤ f.height ∧ x + 4 ≤ f.width then
        some { r := blockSum f x y ColorEntry.r / 16,
               g := blockSum f x y ColorEntry.g / 16,
               b := blockSum f x y ColorEntry.b / 16 }
      else none) ∧
    16 * (blockSum f x y ColorEntry.r / 16) ≤ blockSum f x y ColorEntry.r ∧
    blockSum f x y ColorEntry.r < 16 * (blockSum f x y ColorEntry.r / 16) + 16 ∧
    16 * (blockSum f x y ColorEntry.g / 16) ≤ blockSum f x y ColorEntry.g ∧
    blockSum f x y ColorEntry.g < 16 * (blockSum f x y ColorEntry.g / 16) + 16 ∧
    16 * (blockSum f x y ColorEntry.b / 16) ≤ blockSum f x y ColorEntry.b ∧
    blockSum f x y ColorEntry.b < 16 * (blockSum f x y ColorEntry.b / 16) + 16 := by
  refine ⟨rfl, ?_, ?_, ?_, ?_, ?_, ?_⟩ <;> omega

/-- Claim C8 (code_bug evidence): on an empty input the encoder performs
substantial I/O (saves the upload, opens the writer, writes the 30 black
filler frames and five pooled frames) before failing with a generic
logged exception — there is no `EmptyInput` rejection before I/O. -/
theorem c8_empty_input_io_then_generic_error :
    (convert_file_to_video hashZero "f.bin" [] (List.range 30)).result = none ∧
    (convert_file_to_video hashZero "f.bin" [] (List.range 30)).logs
      = [.conversionError] ∧
    (convert_file_to_video hashZero "f.bin" [] (List.range 30)).saved_metadata = none ∧
    IOEvent.writeTempFile []
      ∈ (convert_file_to_video hashZero "f.bin" [] (List.range 30)).trace ∧
    IOEvent.openVideoWriter VIDEO_PATH
      ∈ (convert_file_to_video hashZero "f.bin" [] (List.range 30)).trace ∧
    (convert_file_to_video hashZero "f.bin" [] (List.range 30)).trace.length = 37 := by
  decide

/-- Claim C9: every `byte_ranges` entry produced by encode holds exactly
`frame = 6` and `block = i` with no `coordinates` key, and since the
decoder samples a block only when `coordinates` is present, the byte
stream it reconstructs from any encode-produced manifest is empty,
whatever frame and color table it is given. -/
theorem c9_decode_of_encode_manifest_is_empty (n : Nat) (fr : Frame)
    (table : List (Nat × ColorEntry)) :
    ((byte_to_block_map n).all fun p =>
        p.2.frame == 6 && p.2.coordinates.isNone) = true ∧
    reconstruct_bytes_from_frame fr table (byte_to_block_map n) = some [] := by
  constructor
  · rw [List.all_eq_true]
    intro p hp
    rw [(byte_to_block_map_entry hp).2]
    rfl
  · exact reconstructGo_all_none fr table _ []
      fun p hp => by rw [(byte_to_block_map_entry hp).2]

/-- Any of the structural defects named by the spec makes
`verify_metadata` return `False`. -/
theorem verify_metadata_false {md : Metadata}
    (hbad : md.file_size = none ∨ md.file_hash = none ∨
      md.byte_ranges = BRField.missing ∨ md.byte_ranges = BRField.notDict ∨
      md.byte_ranges = BRField.dict []) :
    (verify_metadata md).1 = false := by
  obtain ⟨fs, fh, og, vp, br⟩ := md
  cases fs <;> cases fh <;>
    rcases hbad with h | h | h | h | h <;>
      simp_all [verify_metadata]

/-- The encode-produced byte map of a non-empty input is non-empty. -/
theorem byte_to_block_map_ne_nil {n : Nat} (hn : 1 ≤ n) :
    byte_to_block_map n ≠ [] := by
  have hlen : (byte_to_block_map n).length = n := by
    simp [byte_to_block_map]
  intro h0
  rw [h0] at hlen
  simp at hlen
  omega

/-- Claim C5: if the metadata file is absent, or the loaded metadata is
missing any of `file_size`, `file_hash`, `byte_ranges`, or `byte_ranges`
is not a non-empty mapping, decode refuses to proceed (returns `None`,
writes nothing) and reports the distinguishing error of its failure mode;
no exception escapes (the model's decode is a total function into
`DecodeOutcome`, mirroring the all-enclosing `try/except`). -/
theorem c5_decode_refuses_on_bad_metadata (H : List Nat → String)
    (env : DecodeEnv)
    (h : env.metadata = none ∨ ∃ md, env.metadata = some md ∧
      (md.file_size = none ∨ md.file_hash = none ∨
       md.byte_ranges = BRField.missing ∨ md.byte_ranges = BRField.notDict ∨
       md.byte_ranges = BRField.dict [])) :
    (convert_video_to_file H env).result = none ∧
    (convert_video_to_file H env).reconstructed = none ∧
    (env.metadata = none →
      (convert_video_to_file H env).logs = [LogEvent.metadataAbsent]) ∧
    (∀ md, env.metadata = some md →
      (verify_metadata md).1 = false ∧
      (convert_video_to_file H env).logs
        = (verify_metadata md).2 ++ [LogEvent.verifyAbort]) := by
  rcases h with hnone | ⟨md, hmd, hbad⟩
  · refine ⟨?_, ?_, ?_, ?_⟩ <;>
      simp only [convert_video_to_file, hnone]
    · intros
      trivial
    · exact fun md hmd => Option.noConfusion hmd
  · have hv := verify_metadata_false hbad
    refine ⟨?_, ?_, ?_, ?_⟩
    · simp only [convert_video_to_file, hmd, hv]
      rfl
    · simp only [convert_video_to_file, hmd, hv]
      rfl
    · intro h0
      rw [h0] at hmd
      exact Option.noConfusion hmd
    · intro md2 hmd2
      have hsame : md2 = md := by
        rw [hmd] at hmd2
        exact (Option.some.inj hmd2).symm
      subst hsame
      refine ⟨hv, ?_⟩
      simp only [convert_video_to_file, hmd, hv]
      rfl

/-- Claim C5 witness: the concrete absent-metadata environment. -/
theorem c5_witness :
    (envBad.metadata = none ∨ ∃ md, envBad.metadata = some md ∧
      (md.file_size = none ∨ md.file_hash = none ∨
       md.byte_ranges = BRField.missing ∨ md.byte_ranges = BRField.notDict ∨
       md.byte_ranges = BRField.dict [])) ∧
    ((convert_video_to_file hashZero envBad).result = none ∧
     (convert_video_to_file hashZero envBad).reconstructed = none ∧
     (envBad.metadata = none →
       (convert_video_to_file hashZero envBad).logs = [LogEvent.metadataAbsent]) ∧
     (∀ md, envBad.metadata = some md →
       (verify_metadata md).1 = false ∧
       (convert_video_to_file hashZero envBad).logs
         = (verify_metadata md).2 ++ [LogEvent.verifyAbort])) :=
  ⟨Or.inl rfl, c5_decode_refuses_on_bad_metadata hashZero envBad (Or.inl rfl)⟩

/-- Claim C6: whenever decode reaches the verification stage and the
recomputed size or hash of the reconstructed stream differs from the
manifest's stored values, it logs both the expected and the actual
values, logs a mismatch warning for the differing quantity, and STILL
returns the reconstructed bytes (writes them and returns the file path):
the mismatch is advisory. -/
theorem c6_mismatch_is_advisory (H : List Nat → String) (env : DecodeEnv)
    (md : Metadata) (table : List (Nat × ColorEntry)) (fr : Frame)
    (esz : Nat) (ehash : String)
    (h1 : env.metadata = some md) (h2 : (verify_metadata md).1 = true)
    (h3 : env.videoOpens = true) (h4 : env.color_mapping = some table)
    (h5 : env.frame6 = some fr)
    (h6 : md.file_size = some esz) (h7 : md.file_hash = some ehash)
    (h8 : (reconstructedStream fr table md).length ≠ esz ∨
          H (reconstructedStream fr table md) ≠ ehash) :
    (convert_video_to_file H env).result = some RECONSTRUCTED_FILE_PATH ∧
    (convert_video_to_file H env).reconstructed
      = some (reconstructedStream fr table md) ∧
    LogEvent.expectedSizeIs esz ∈ (convert_video_to_file H env).logs ∧
    LogEvent.actualSizeIs (reconstructedStream fr table md).length
      ∈ (convert_video_to_file H env).logs ∧
    LogEvent.expectedHashIs ehash ∈ (convert_video_to_file H env).logs ∧
    LogEvent.actualHashIs (H (reconstructedStream fr table md))
      ∈ (convert_video_to_file H env).logs ∧
    ((reconstructedStream fr table md).length ≠ esz →
      LogEvent.sizeMismatchWarning ∈ (convert_video_to_file H env).logs) ∧
    (H (reconstructedStream fr table md) ≠ ehash →
      LogEvent.hashMismatchWarning ∈ (convert_video_to_file H env).logs) := by
  have hd : convert_video_to_file H env =
      { result := some RECONSTRUCTED_FILE_PATH,
        reconstructed := some (reconstructedStream fr table md),
        logs := (verify_metadata md).2
          ++ (collectFutures (decodeFutures fr table (brEntries md))).2
          ++ ([.expectedSizeIs esz,
               .actualSizeIs (reconstructedStream fr table md).length]
            ++ (if (reconstructedStream fr table md).length ≠ esz
                then [.sizeMismatchWarning] else [.sizeMatches])
            ++ [.expectedHashIs ehash,
                .actualHashIs (H (reconstructedStream fr table md))]
            ++ (if H (reconstructedStream fr table md) ≠ ehash
                then [.hashMismatchWarning] else [.hashMatches])) } := by
    simp only [convert_video_to_file, h1, h2, h3, h4, h5, if_true,
      check_file_properties, h6, h7, reconstructedStream]
  rw [hd]
  refine ⟨rfl, rfl, ?_, ?_, ?_, ?_, ?_, ?_⟩
  · simp [List.mem_append]
  · simp [List.mem_append]
  · simp [List.mem_append]
  · simp [List.mem_append]
  · intro hx
    simp [List.mem_append, hx]
  · intro hx
    simp [List.mem_append, hx]

/-- Claim C6 witness: the concrete environment `envW`, whose manifest
stores size 1 and hash "x" while the reconstructed stream is empty. -/
theorem c6_witness :
    ((reconstructedStream frX [] mdW).length ≠ 1 ∨
      hashZero (reconstructedStream frX [] mdW) ≠ "x") ∧
    ((convert_video_to_file hashZero envW).result = some RECONSTRUCTED_FILE_PATH ∧
     (convert_video_to_file hashZero envW).reconstructed
       = some (reconstructedStream frX [] mdW) ∧
     LogEvent.expectedSizeIs 1 ∈ (convert_video_to_file hashZero envW).logs ∧
     LogEvent.actualSizeIs (reconstructedStream frX [] mdW).length
       ∈ (convert_video_to_file hashZero envW).logs ∧
     LogEvent.expectedHashIs "x" ∈ (convert_video_to_file hashZero envW).logs ∧
     LogEvent.actualHashIs (hashZero (reconstructedStream frX [] mdW))
       ∈ (convert_video_to_file hashZero envW).logs ∧
     ((reconstructedStream frX [] mdW).length ≠ 1 →
       LogEvent.sizeMismatchWarning ∈ (convert_video_to_file hashZero envW).logs) ∧
     (hashZero (reconstructedStream frX [] mdW) ≠ "x" →
       LogEvent.hashMismatchWarning ∈ (convert_video_to_file hashZero envW).logs)) :=
  ⟨by decide,
   c6_mismatch_is_advisory hashZero envW mdW [] frX 1 "x" rfl (by decide)
     rfl rfl rfl rfl rfl (by decide)⟩

/-- Claim C10 counterexample: a block color that exactly matches the
table entry keyed 300 makes `bytearray.append` raise inside the worker
(`reconstruct_bytes_from_frame` aborts, `none`), but decode catches the
per-future exception, logs it, and returns the reconstructed-file path —
NOT `None` as the claim states. -/
theorem c10_counterexample :
    findMatch tableX { r := 1, g := 2, b := 3 } = some 300 ∧
    (255 : Nat) < 300 ∧
    reconstruct_bytes_from_frame frX tableX (brEntries mdX) = none ∧
    (convert_video_to_file hashZero envX10).result = some RECONSTRUCTED_FILE_PATH ∧
    (convert_video_to_file hashZero envX10).result ≠ none ∧
    LogEvent.futureError ∈ (convert_video_to_file hashZero envX10).logs := by
  decide

/-- Claim C10 (amended): on an exact color match the recoverer appends
the matched entry's integer key — the byte POSITION index, not the
original byte value; for a matched key below 256 the key itself lands in
the output, for a key above 255 `bytearray.append` raises and the whole
per-frame reconstruction returns `none` — but the exception is caught
per-future inside decode, which still returns the reconstructed-file
path (with that worker's bytes dropped) rather than `None`. -/
theorem c10_appends_key_and_decode_still_returns (fr : Frame)
    (table : List (Nat × ColorEntry)) (x y k : Nat) (c : ColorEntry)
    (esz : Nat) (ehash : String) (H : List Nat → String)
    (h1 : process_block fr x y = some c) (h2 : findMatch table c = some k) :
    reconstruct_bytes_from_frame fr table
        [(0, { frame := 6, block := 0, coordinates := some (x, y) })]
      = (if k < 256 then some [k] else none) ∧
    (convert_video_to_file H
      { metadata := some
          { file_size := some esz, file_hash := some ehash,
            original_format := none, video_path := none,
            byte_ranges := .dict
              [(0, { frame := 6, block := 0, coordinates := some (x, y) })] },
        videoOpens := true, color_mapping := some table,
        frame6 := some fr }).result = some RECONSTRUCTED_FILE_PATH := by
  have hrec : reconstruct_bytes_from_frame fr table
        [(0, { frame := 6, block := 0, coordinates := some (x, y) })]
      = (if k < 256 then some [k] else none) := by
    by_cases hk : k < 256 <;>
      simp [reconstruct_bytes_from_frame, reconstructGo, h1, h2,
        bytearray_append, hk]
  refine ⟨hrec, ?_⟩
  by_cases hk : k < 256 <;>
    simp [convert_video_to_file, verify_metadata, brEntries, decodeFutures,
      collectFutures, check_file_properties, hrec, hk]

/-- Claim C10 witness: the amended statement at the concrete frame,
table and coordinates of the counterexample (matched key 300). -/
theorem c10_witness :
    process_block frX 0 0 = some { r := 1, g := 2, b := 3 } ∧
    findMatch tableX { r := 1, g := 2, b := 3 } = some 300 ∧
    (reconstruct_bytes_from_frame frX tableX
        [(0, { frame := 6, block := 0, coordinates := some (0, 0) })]
      = (if 300 < 256 then some [300] else none) ∧
    (convert_video_to_file hashZero
      { metadata := some
          { file_size := some 0, file_hash := some "",
            original_format := none, video_path := none,
            byte_ranges := .dict
              [(0, { frame := 6, block := 0, coordinates := some (0, 0) })] },
        videoOpens := true, color_mapping := some tableX,
        frame6 := some frX }).result = some RECONSTRUCTED_FILE_PATH) :=
  ⟨by decide, by decide,
   c10_appends_key_and_decode_still_returns frX tableX 0 0 300
     { r := 1, g := 2, b := 3 } 0 "" hashZero (by decide) (by decide)⟩

/-- Claim C1 (code_bug evidence): for every non-empty input and every
worker completion order, decoding the video produced by encode — with no
lossy re-encoding in between — reconstructs the EMPTY byte stream, not
the original bytes: the encode-produced manifest carries no coordinates,
so decode samples nothing. -/
theorem c1_round_trip_reconstructs_nothing (H : List Nat → String)
    (filename : String) (content : List Nat) (completion : List Nat)
    (h : 1 ≤ content.length) :
    (roundTrip H filename content completion).reconstructed = some [] ∧
    content ≠ [] := by
  constructor
  · have hpool := poolWrites_ok h completion
    have henv : decodeEnvOf
          (convert_file_to_video H filename content completion)
          content.length completion
        = { metadata := some
              { file_size := some content.length, file_hash := some (H content),
                original_format := some (extOf filename),
                video_path := some VIDEO_PATH,
                byte_ranges := .dict (byte_to_block_map content.length) },
            videoOpens := true,
            color_mapping := some (color_mapping content.length),
            frame6 := some (FrameBuf.toFrame black_frame) } := by
      simp only [decodeEnvOf, convert_file_to_video, hpool, if_true,
        videoFrames_get6, Option.isSome_some]
      rfl
    unfold roundTrip
    rw [henv]
    have hrec : reconstruct_bytes_from_frame (FrameBuf.toFrame black_frame)
        (color_mapping content.length) (byte_to_block_map content.length)
        = some [] :=
      reconstructGo_all_none _ _ _ []
        fun p hp => by rw [(byte_to_block_map_entry hp).2]
    have hfut : ∀ r ∈ decodeFutures (FrameBuf.toFrame black_frame)
        (color_mapping content.length) (byte_to_block_map content.length),
        r = some [] := by
      intro r hr
      simp only [decodeFutures, List.mem_map] at hr
      obtain ⟨p, -, rfl⟩ := hr
      exact hrec
    have hcol := collectFutures_all_empty hfut
    cases hl : byte_to_block_map content.length with
    | nil => exact absurd hl (byte_to_block_map_ne_nil h)
    | cons a t =>
      rw [hl] at hcol
      simp only [convert_video_to_file, verify_metadata, Option.isNone_some,
        Bool.false_eq_true, if_false, brEntries, hl, hcol,
        check_file_properties]
      rfl
  · intro h0
    rw [h0] at h
    exact absurd h (by decide)

/-- Claim C1 witness: the concrete single-byte input 72 with workers
completing in submission order. -/
theorem c1_witness :
    1 ≤ ([72] : List Nat).length ∧
    ((roundTrip hashZero "f.bin" [72] (List.range 30)).reconstructed = some [] ∧
     ([72] : List Nat) ≠ []) :=
  ⟨by decide,
   c1_round_trip_reconstructs_nothing hashZero "f.bin" [72] (List.range 30)
     (by decide)⟩

end F2V
